import Mathlib

/-!
ArchInsight — Code Dependency Analysis: verification development.

Shallow embedding of the ArchInsight frontend sources
(`frontend/src/pages/Analysis.tsx`, `frontend/src/App.tsx` (Projects page),
`frontend/src/pages/Dashboard.tsx`) together with spec-modelled definitions
for the analysis-engine components that are described in the specification
but whose implementation is not among the sources (Risk Scorer, Metrics
Computer, Dependency Graph Builder, Pipeline Orchestrator).

JavaScript numbers are modelled as `ℚ`; JS string operations
(`toLowerCase`, `includes`) as `String.toLower` and infix containment on
character lists.
-/

/-- A node of the dependency graph, from `AnalysisData.results.dependencyGraph.nodes`
in `Analysis.tsx`. -/
structure DependencyNode where
  id : String
  name : String
  type : String
  language : String
  complexity : ℚ
  linesOfCode : ℚ
  deriving DecidableEq, Repr

/-- An edge of the dependency graph, from `AnalysisData.results.dependencyGraph.edges`
in `Analysis.tsx`. -/
structure DependencyEdge where
  source : String
  target : String
  type : String
  weight : ℚ
  deriving DecidableEq, Repr

/-- The dependency graph of an analysis result (`Analysis.tsx`). -/
structure DependencyGraph where
  nodes : List DependencyNode
  edges : List DependencyEdge
  deriving DecidableEq, Repr

/-- Project-level metrics of an analysis result (`Analysis.tsx`). -/
structure Metrics where
  totalFiles : ℚ
  totalLines : ℚ
  averageComplexity : ℚ
  cyclomaticComplexity : ℚ
  maintainabilityIndex : ℚ
  technicalDebt : String
  deriving DecidableEq, Repr

/-- A risk entry of an analysis result (`Analysis.tsx`).  In the TypeScript
source the `severity` field has union type `low | medium | high | critical`. -/
structure Risk where
  id : String
  severity : String
  title : String
  description : String
  file : String
  line : ℚ
  category : String
  deriving DecidableEq, Repr

/-- A recommendation entry of an analysis result (`Analysis.tsx`). -/
structure Recommendation where
  id : String
  type : String
  title : String
  description : String
  severity : String
  confidence : ℚ
  impactScore : ℚ
  effortEstimate : String
  deriving DecidableEq, Repr

/-- The `results` payload of `AnalysisData` (`Analysis.tsx`). -/
structure AnalysisResults where
  dependencyGraph : DependencyGraph
  metrics : Metrics
  risks : List Risk
  recommendations : List Recommendation
  deriving DecidableEq, Repr

/-- The `AnalysisData` record of `Analysis.tsx`; `results` is optional in the
TypeScript interface. -/
structure AnalysisData where
  id : Int
  projectId : Int
  projectName : String
  status : String
  progress : ℚ
  analysisType : String
  startedAt : String
  completedAt : Option String
  results : Option AnalysisResults
  deriving DecidableEq, Repr

/-- The mock `results` value constructed inside `fetchAnalysis` in
`Analysis.tsx` (lines 152-217), transcribed literally. -/
def mockResults : AnalysisResults :=
  { dependencyGraph :=
      { nodes :=
          [ { id := "1", name := "main.py", type := "file", language := "python",
              complexity := 3, linesOfCode := 45 },
            { id := "2", name := "auth.py", type := "file", language := "python",
              complexity := 8, linesOfCode := 120 },
            { id := "3", name := "models.py", type := "file", language := "python",
              complexity := 2, linesOfCode := 35 },
            { id := "4", name := "utils.py", type := "file", language := "python",
              complexity := 5, linesOfCode := 80 } ],
        edges :=
          [ { source := "1", target := "2", type := "imports", weight := 1 },
            { source := "1", target := "3", type := "imports", weight := 1 },
            { source := "2", target := "3", type := "uses", weight := mkRat 4 5 },
            { source := "2", target := "4", type := "imports", weight := 1 } ] },
    metrics :=
      { totalFiles := 4, totalLines := 280, averageComplexity := mkRat 9 2,
        cyclomaticComplexity := 18, maintainabilityIndex := 75,
        technicalDebt := "medium" },
    risks :=
      [ { id := "1", severity := "high", title := "High Cyclomatic Complexity",
          description := "The auth.py file has a cyclomatic complexity of 8, which indicates complex logic that may be difficult to maintain.",
          file := "auth.py", line := 45, category := "complexity" },
        { id := "2", severity := "medium", title := "Large Function",
          description := "The authenticate_user function in auth.py is 45 lines long and handles multiple responsibilities.",
          file := "auth.py", line := 23, category := "maintainability" } ],
    recommendations :=
      [ { id := "1", type := "refactoring", title := "Extract Authentication Logic",
          description := "Break down the authenticate_user function into smaller, more focused functions.",
          severity := "medium", confidence := mkRat 17 20, impactScore := mkRat 7 10,
          effortEstimate := "medium" },
        { id := "2", type := "security", title := "Add Input Validation",
          description := "Implement comprehensive input validation for user credentials.",
          severity := "high", confidence := mkRat 9 10, impactScore := mkRat 4 5,
          effortEstimate := "low" } ] }

/-- Embeds `fetchAnalysis` of `Analysis.tsx` (lines 135-227): builds the mock
`AnalysisData` for a given analysis id and stores it.  It is a pure
function of the id. -/
def fetchAnalysis (analysisId : Int) : AnalysisData :=
  { id := analysisId, projectId := 1, projectName := "User Management API",
    status := "completed", progress := 100, analysisType := "full",
    startedAt := "2024-01-15T10:30:00Z",
    completedAt := some "2024-01-15T10:35:00Z",
    results := some mockResults }

/-- Embeds `getSeverityColor` of `Analysis.tsx` (lines 233-241). -/
def getSeverityColor (severity : String) : String :=
  if severity = "critical" then "error"
  else if severity = "high" then "error"
  else if severity = "medium" then "warning"
  else if severity = "low" then "info"
  else "default"

/-- The guard of the results block of `Analysis.tsx` (line 311): the result
content is rendered exactly when `analysis.results` is present. -/
def showsResults (a : AnalysisData) : Bool :=
  a.results.isSome

/-- A project record, from the `Project` interface of the Projects page
(`App.tsx`). -/
structure Project where
  id : Int
  name : String
  description : String
  repository_url : String
  language : String
  status : String
  created_at : String
  updated_at : String
  deriving DecidableEq, Repr

/-- JS `s.includes(sub)`: `sub` occurs as a contiguous substring of `s`
(always true for the empty string). -/
def jsIncludes (s sub : String) : Bool :=
  decide (sub.data <:+: s.data)

/-- JS `s.toLowerCase()`: each character lowercased (for the ASCII content of
the sources this is exactly character-wise `Char.toLower`). -/
def jsToLower (s : String) : String :=
  ⟨s.data.map Char.toLower⟩

/-- The search predicate of `filteredProjects` in `App.tsx` (lines 246-247):
the project name or its description contains the search term,
case-insensitively. -/
def matchesSearch (searchTerm : String) (p : Project) : Bool :=
  jsIncludes (jsToLower p.name) (jsToLower searchTerm) ||
    jsIncludes (jsToLower p.description) (jsToLower searchTerm)

/-- The language predicate of `filteredProjects` in `App.tsx` (line 248):
an empty filter accepts everything, otherwise the project language must
equal the filter. -/
def matchesLanguage (languageFilter : String) (p : Project) : Bool :=
  languageFilter == "" || p.language == languageFilter

/-- Embeds `filteredProjects` of `App.tsx` (lines 245-250). -/
def filteredProjects (projects : List Project)
    (searchTerm languageFilter : String) : List Project :=
  projects.filter (fun p => matchesSearch searchTerm p && matchesLanguage languageFilter p)

/-- Embeds `paginatedProjects` of `App.tsx` (lines 252-255):
`filtered.slice(page*rowsPerPage, page*rowsPerPage + rowsPerPage)`. -/
def paginatedProjects (projects : List Project)
    (searchTerm languageFilter : String) (page rowsPerPage : Nat) : List Project :=
  ((filteredProjects projects searchTerm languageFilter).drop (page * rowsPerPage)).take
    rowsPerPage

/-- Embeds `handleDelete` of `App.tsx` (lines 228-239): the `window.confirm` outcome
is the `confirmed` argument; on confirmation the projects list is replaced by
`projects.filter(p => p.id !== projectId)`, otherwise it is left unchanged. -/
def handleDelete (confirmed : Bool) (projectId : Int)
    (projects : List Project) : List Project :=
  if confirmed then projects.filter (fun p => decide (p.id ≠ projectId)) else projects

/-- The mock projects list built by `fetchProjects` in `App.tsx`
(lines 126-157). -/
def mockProjects : List Project :=
  [ { id := 1, name := "User Management API",
      description := "RESTful API for user authentication and management",
      repository_url := "https://github.com/company/user-api",
      language := "Python", status := "active",
      created_at := "2024-01-10T10:00:00Z", updated_at := "2024-01-15T14:30:00Z" },
    { id := 2, name := "Payment Gateway",
      description := "Secure payment processing service",
      repository_url := "https://github.com/company/payment-service",
      language := "TypeScript", status := "active",
      created_at := "2024-01-08T09:00:00Z", updated_at := "2024-01-14T16:45:00Z" },
    { id := 3, name := "Authentication Service",
      description := "JWT-based authentication microservice",
      repository_url := "https://github.com/company/auth-service",
      language := "Go", status := "active",
      created_at := "2024-01-05T11:00:00Z", updated_at := "2024-01-12T13:20:00Z" } ]

/-- An entry of `DashboardStats.riskBreakdown` (`Dashboard.tsx`). -/
structure RiskBreakdownEntry where
  severity : String
  count : Nat
  color : String
  deriving DecidableEq, Repr

/-- An entry of `DashboardStats.recentAnalyses` (`Dashboard.tsx`). -/
structure RecentAnalysis where
  id : Int
  projectName : String
  status : String
  createdAt : String
  deriving DecidableEq, Repr

/-- An entry of `DashboardStats.languageDistribution` (`Dashboard.tsx`). -/
structure LanguageCount where
  language : String
  count : Nat
  deriving DecidableEq, Repr

/-- The `DashboardStats` record of `Dashboard.tsx`. -/
structure DashboardStats where
  totalProjects : Nat
  totalAnalyses : Nat
  totalRisks : Nat
  recentAnalyses : List RecentAnalysis
  riskBreakdown : List RiskBreakdownEntry
  languageDistribution : List LanguageCount
  deriving DecidableEq, Repr

/-- Embeds `fetchDashboardStats` of `Dashboard.tsx` (lines 59-98): the mock
dashboard statistics, transcribed literally. -/
def fetchDashboardStats : DashboardStats :=
  { totalProjects := 12, totalAnalyses := 45, totalRisks := 8,
    recentAnalyses :=
      [ { id := 1, projectName := "User Management API", status := "completed",
          createdAt := "2024-01-15T10:30:00Z" },
        { id := 2, projectName := "Payment Gateway", status := "running",
          createdAt := "2024-01-15T09:15:00Z" },
        { id := 3, projectName := "Auth Service", status := "completed",
          createdAt := "2024-01-15T08:45:00Z" } ],
    riskBreakdown :=
      [ { severity := "Critical", count := 2, color := "#f44336" },
        { severity := "High", count := 3, color := "#ff9800" },
        { severity := "Medium", count := 2, color := "#ffc107" },
        { severity := "Low", count := 1, color := "#4caf50" } ],
    languageDistribution :=
      [ { language := "Python", count := 8 },
        { language := "JavaScript", count := 6 },
        { language := "TypeScript", count := 4 },
        { language := "Java", count := 3 },
        { language := "Go", count := 2 } ] }

/-- Modelled from the spec: the Risk Scorer (spec section 4.4) is not among the
sources (only severity labels reach the frontend).  Per the spec it combines
normalized complexity, inverted maintainability, fan-in and fan-out via a
weighted sum with default weights 0.4, 0.3, 0.15, 0.15. -/
def riskScore (complexity invMaintainability fanIn fanOut : ℚ) : ℚ :=
  2/5 * complexity + 3/10 * invMaintainability + 3/20 * fanIn + 3/20 * fanOut

/-- Modelled from the spec: severity bucketing of a risk value
(spec section 4.4): critical at 0.8 and above, high at 0.6, medium at 0.35,
low otherwise. -/
def severityOf (r : ℚ) : String :=
  if 4/5 ≤ r then "critical"
  else if 3/5 ≤ r then "high"
  else if 7/20 ≤ r then "medium"
  else "low"

/-- Modelled from the spec: the Metrics Computer (spec section 4.3) is not
among the sources.  The spec requires a bounded 0-100 maintainability score
combining complexity, size and comment density, monotonically non-increasing
in complexity and size; we model it as a clamped linear combination. -/
def maintainabilityIndex (complexity loc commentDensity : ℚ) : ℚ :=
  max 0 (min 100 (100 - 2 * complexity - loc / 10 + 20 * commentDensity))

/-- Modelled from the spec: a SymbolRecord (spec section 3) — the normalized
parse output of one SourceUnit: the node id derived from its path, plus the
raw references written in the file (unresolved). -/
structure SymbolRecord where
  nodeId : String
  rawRefs : List String
  deriving DecidableEq, Repr

/-- Ordering of symbol records by node id, used by the Graph Builder to make
resolution independent of file processing order (spec section 4.2). -/
def recLE (a b : SymbolRecord) : Prop :=
  a.nodeId ≤ b.nodeId

instance : DecidableRel recLE :=
  fun a b => inferInstanceAs (Decidable (a.nodeId ≤ b.nodeId))

instance : IsTotal SymbolRecord recLE :=
  ⟨fun a b => le_total a.nodeId b.nodeId⟩

instance : IsTrans SymbolRecord recLE :=
  ⟨fun _ _ _ h h' => le_trans h h'⟩

/-- Modelled from the spec: resolution of one record's raw references
(spec section 4.2): a reference resolves when it names an existing node id
(exact match, weight 1.0); unresolvable references are skipped (they become
diagnostics, not edges) and self-edges are dropped. -/
def resolveRecord (ids : List String) (r : SymbolRecord) : List DependencyEdge :=
  (r.rawRefs.filter (fun t => decide (t ∈ ids) && decide (t ≠ r.nodeId))).map
    (fun t => { source := r.nodeId, target := t, type := "imports", weight := 1 })

/-- Modelled from the spec: the Dependency Graph Builder (spec section 4.2) is
not among the sources.  It sorts the complete set of SymbolRecords by node id
before resolution (to be independent of file processing order), resolves each
record's raw references against the set of node ids, and deduplicates the
resulting edge set. -/
def buildGraph (records : List SymbolRecord) : List DependencyEdge :=
  let sorted := records.insertionSort recLE
  let ids := sorted.map (fun r => r.nodeId)
  (sorted.flatMap (resolveRecord ids)).dedup

/-- Modelled from the spec: the stages of the Pipeline Orchestrator state
machine (spec section 4.6). -/
inductive JobStage where
  | pending
  | parsing
  | graphBuilding
  | metricComputing
  | scoring
  | completed
  | cancelled
  | failed
  deriving DecidableEq, Repr

/-- Terminal stages of the orchestrator state machine (spec section 4.6). -/
def JobStage.isTerminal : JobStage → Bool
  | .completed => true
  | .cancelled => true
  | .failed => true
  | _ => false

/-- Modelled from the spec: an AnalysisJob record (spec sections 3 and 4.6) —
the Pipeline Orchestrator is not among the sources.  It carries the stage,
the per-stage progress counters (files with a terminal outcome out of the
total), the node-scoped diagnostics, the results payload (present only once
scoring finished) and the terminal fatal error, if any. -/
structure JobState where
  stage : JobStage
  totalFiles : Nat
  doneFiles : Nat
  diagnostics : List String
  results : Option AnalysisResults
  fatalError : Option String
  deriving DecidableEq, Repr

/-- Progress as surfaced by the orchestrator: an integer percentage computed
from the completed-file counter (spec section 4.6). -/
def jobProgress (j : JobState) : Nat :=
  if j.totalFiles = 0 then 100 else j.doneFiles * 100 / j.totalFiles

/-- A freshly accepted job over `total` enumerated files. -/
def initJob (total : Nat) : JobState :=
  { stage := .pending, totalFiles := total, doneFiles := 0,
    diagnostics := [], results := none, fatalError := none }

/-- Modelled from the spec: the transitions of the Pipeline Orchestrator
(spec section 4.6).  Every file outcome — success or failure — increments the
completed counter; graph building starts only once every file has a terminal
outcome; Failed and Cancelled are reachable from any non-terminal stage;
a stage failure records exactly one fatal error and drops the results;
terminal states admit no further transition. -/
inductive JobStep : JobState → JobState → Prop where
  | accept (j : JobState) :
      j.stage = .pending →
      JobStep j { j with stage := .parsing }
  | parseFile (j : JobState) (d : List String) :
      j.stage = .parsing → j.doneFiles < j.totalFiles →
      JobStep j { j with doneFiles := j.doneFiles + 1, diagnostics := j.diagnostics ++ d }
  | finishParsing (j : JobState) :
      j.stage = .parsing → j.doneFiles = j.totalFiles →
      JobStep j { j with stage := .graphBuilding }
  | buildDone (j : JobState) :
      j.stage = .graphBuilding →
      JobStep j { j with stage := .metricComputing }
  | metricsDone (j : JobState) :
      j.stage = .metricComputing →
      JobStep j { j with stage := .scoring }
  | scoreDone (j : JobState) (r : AnalysisResults) :
      j.stage = .scoring →
      JobStep j { j with stage := .completed, results := some r }
  | stageFail (j : JobState) (e : String) :
      j.stage.isTerminal = false →
      JobStep j { j with stage := .failed, results := none, fatalError := some e }
  | cancel (j : JobState) :
      j.stage.isTerminal = false →
      JobStep j { j with stage := .cancelled }

/-- A job state reachable by the orchestrator from some accepted job. -/
def JobReachable (j : JobState) : Prop :=
  ∃ n, Relation.ReflTransGen JobStep (initJob n) j

/-- Invariant of the orchestrator state machine: the completed-file counter
never exceeds the total; every stage from graph building on has a full
counter; a completed job carries a results payload; a failed job carries no
results and a fatal error; any job not in the Failed state carries no fatal
error. -/
def JobInv (j : JobState) : Prop :=
  j.doneFiles ≤ j.totalFiles ∧
    ((j.stage = .graphBuilding ∨ j.stage = .metricComputing ∨
        j.stage = .scoring ∨ j.stage = .completed) →
      j.doneFiles = j.totalFiles) ∧
    (j.stage = .completed → j.results.isSome = true) ∧
    (j.stage = .failed → j.results = none ∧ j.fatalError.isSome = true) ∧
    (j.stage ≠ .failed → j.fatalError = none)

/-- A concrete one-file job driven to the Completed state. -/
def jobDemoDone : JobState :=
  { stage := .completed, totalFiles := 1, doneFiles := 1, diagnostics := [],
    results := some mockResults, fatalError := none }

/-- A concrete one-file job that failed during graph building. -/
def jobDemoFailed : JobState :=
  { stage := .failed, totalFiles := 1, doneFiles := 1, diagnostics := [],
    results := none, fatalError := some "GraphBuildError" }

/-- C10: in the dashboard statistics returned by `fetchDashboardStats`, the
sum of the per-severity counts in `riskBreakdown` equals `totalRisks`. -/
theorem dashboardRiskBreakdownSum :
    (fetchDashboardStats.riskBreakdown.map (fun e => e.count)).sum =
      fetchDashboardStats.totalRisks := by
  decide

/-- C2 counterexample: the claim that every edge of an analysis result has
type in {imports, calls, inherits} is false on the code: the mock analysis
produced by `fetchAnalysis` contains the edge from node 2 to node 3 with
type "uses". -/
theorem edgeTypeClaimFalse :
    ¬ ∀ e ∈ mockResults.dependencyGraph.edges,
        e.type = "imports" ∨ e.type = "calls" ∨ e.type = "inherits" := by
  decide

/-- C2 (amended): every edge of the analysis result produced by
`fetchAnalysis` has type in {imports, calls, inherits, uses}, a weight in
[0,1], and a source node distinct from its target node. -/
theorem edgesWellFormed :
    ∀ e ∈ mockResults.dependencyGraph.edges,
      (e.type = "imports" ∨ e.type = "calls" ∨ e.type = "inherits" ∨
          e.type = "uses") ∧
        0 ≤ e.weight ∧ e.weight ≤ 1 ∧ e.source ≠ e.target := by
  decide

/-- C2 witness: the amended statement evaluated on the first mock edge. -/
theorem edgesWellFormed_witness :
    ({ source := "1", target := "2", type := "imports", weight := 1 } :
        DependencyEdge) ∈ mockResults.dependencyGraph.edges ∧
      (({ source := "1", target := "2", type := "imports", weight := 1 } :
            DependencyEdge).type = "imports" ∨
          ({ source := "1", target := "2", type := "imports", weight := 1 } :
            DependencyEdge).type = "calls" ∨
          ({ source := "1", target := "2", type := "imports", weight := 1 } :
            DependencyEdge).type = "inherits" ∨
          ({ source := "1", target := "2", type := "imports", weight := 1 } :
            DependencyEdge).type = "uses") ∧
        0 ≤ ({ source := "1", target := "2", type := "imports", weight := 1 } :
            DependencyEdge).weight ∧
        ({ source := "1", target := "2", type := "imports", weight := 1 } :
            DependencyEdge).weight ≤ 1 ∧
        ({ source := "1", target := "2", type := "imports", weight := 1 } :
            DependencyEdge).source ≠
          ({ source := "1", target := "2", type := "imports", weight := 1 } :
            DependencyEdge).target :=
  ⟨by decide, edgesWellFormed _ (by decide)⟩

/-- C4 counterexample: the claim that result content is presented only when
the job state is Completed is false of the rendering code: the results block
of `Analysis.tsx` is guarded solely by the presence of `analysis.results`
(line 311), so an `AnalysisData` record in state "running" that carries a
results payload has its result content rendered. -/
theorem resultsShownClaimFalse :
    showsResults { fetchAnalysis 1 with status := "running" } = true ∧
      ({ fetchAnalysis 1 with status := "running" } : AnalysisData).status ≠
        "completed" := by
  exact ⟨rfl, by decide⟩

/-- C4 (amended): result content is presented exactly when the analysis
record carries a results payload, regardless of its status; for every
analysis the code actually produces (`fetchAnalysis`), the results payload is
present only together with status "completed". -/
theorem resultsShownIffPresent :
    (∀ a : AnalysisData, showsResults a = a.results.isSome) ∧
      ∀ i : Int, showsResults (fetchAnalysis i) = true →
        (fetchAnalysis i).status = "completed" :=
  ⟨fun _ => rfl, fun _ _ => rfl⟩

/-- C4 witness: the amended statement evaluated at analysis id 5. -/
theorem resultsShownIffPresent_witness :
    showsResults (fetchAnalysis 5) = true ∧
      (fetchAnalysis 5).status = "completed" :=
  ⟨rfl, resultsShownIffPresent.2 5 rfl⟩

/-- C7: the maintainability index is bounded within [0,100]: the
spec-modelled metric is clamped into that range for all inputs, and the
value reported in the analysis result produced by `fetchAnalysis` lies in
it as well. -/
theorem maintainabilityBounded :
    (∀ complexity loc commentDensity : ℚ,
        0 ≤ maintainabilityIndex complexity loc commentDensity ∧
          maintainabilityIndex complexity loc commentDensity ≤ 100) ∧
      0 ≤ mockResults.metrics.maintainabilityIndex ∧
        mockResults.metrics.maintainabilityIndex ≤ 100 := by
  refine ⟨fun complexity loc commentDensity => ⟨le_max_left 0 _, ?_⟩, by decide, by decide⟩
  exact max_le (by norm_num) (min_le_left _ _)

/-- C1: the spec-modelled risk value is in [0,1] whenever its normalized
inputs are, and the severity label is determined by the fixed thresholds
(critical at 0.8 and above, high at 0.6, medium at 0.35, low otherwise);
every severity so produced is one the frontend's `getSeverityColor`
recognizes (never the "default" fallback). -/
theorem riskValueBoundsAndSeverity :
    (∀ c m fi fo : ℚ, 0 ≤ c → c ≤ 1 → 0 ≤ m → m ≤ 1 → 0 ≤ fi → fi ≤ 1 →
        0 ≤ fo → fo ≤ 1 →
        0 ≤ riskScore c m fi fo ∧ riskScore c m fi fo ≤ 1) ∧
      (∀ r : ℚ,
          (4/5 ≤ r → severityOf r = "critical") ∧
            (3/5 ≤ r → r < 4/5 → severityOf r = "high") ∧
            (7/20 ≤ r → r < 3/5 → severityOf r = "medium") ∧
            (r < 7/20 → severityOf r = "low")) ∧
      ∀ r : ℚ, getSeverityColor (severityOf r) ≠ "default" := by
  refine ⟨?_, ?_, ?_⟩
  · intro c m fi fo hc0 hc1 hm0 hm1 hfi0 hfi1 hfo0 hfo1
    unfold riskScore
    constructor <;> nlinarith
  · intro r
    unfold severityOf
    split_ifs with h1 h2 h3 <;>
      refine ⟨?_, ?_, ?_, ?_⟩ <;> intros <;> first | rfl | (exfalso; linarith)
  · intro r
    unfold severityOf
    split_ifs <;> decide

/-- C8: for every search term, language filter, page index and rows-per-page
setting, every project row rendered on the Projects page satisfies both
filters (its name or description contains the search term
case-insensitively, and its language equals the filter when the filter is
non-empty), and at most `rowsPerPage` rows are rendered. -/
theorem projectsFilterPagination :
    ∀ (projects : List Project) (searchTerm languageFilter : String)
      (page rowsPerPage : Nat),
      (∀ p ∈ paginatedProjects projects searchTerm languageFilter page rowsPerPage,
          (jsIncludes (jsToLower p.name) (jsToLower searchTerm) = true ∨
              jsIncludes (jsToLower p.description) (jsToLower searchTerm) = true) ∧
            (languageFilter ≠ "" → p.language = languageFilter)) ∧
        (paginatedProjects projects searchTerm languageFilter page
            rowsPerPage).length ≤ rowsPerPage := by
  intro projects searchTerm languageFilter page rowsPerPage
  constructor
  · intro p hp
    have hmemf : p ∈ filteredProjects projects searchTerm languageFilter :=
      List.mem_of_mem_drop (List.mem_of_mem_take hp)
    have hpred := (List.mem_filter.mp hmemf).2
    rw [Bool.and_eq_true] at hpred
    obtain ⟨hsearch, hlang⟩ := hpred
    constructor
    · rw [matchesSearch, Bool.or_eq_true] at hsearch
      exact hsearch
    · intro hne
      rw [matchesLanguage, Bool.or_eq_true] at hlang
      rcases hlang with h | h
      · exact absurd (beq_iff_eq.mp h) hne
      · exact beq_iff_eq.mp h
  · calc (paginatedProjects projects searchTerm languageFilter page
          rowsPerPage).length
        = min rowsPerPage _ := List.length_take _ _
      _ ≤ rowsPerPage := min_le_left _ _

/-- C8 witness: the theorem evaluated on the mock projects with search term
"payment", language filter "TypeScript", page 0 and 10 rows per page; the
Payment Gateway project is rendered and satisfies both filters. -/
theorem projectsFilterPagination_witness :
    mockProjects[1] ∈ paginatedProjects mockProjects "payment" "TypeScript" 0 10 ∧
      (jsIncludes (jsToLower mockProjects[1].name) (jsToLower "payment") = true ∨
          jsIncludes (jsToLower mockProjects[1].description)
            (jsToLower "payment") = true) ∧
      mockProjects[1].language = "TypeScript" ∧
      (paginatedProjects mockProjects "payment" "TypeScript" 0 10).length ≤ 10 := by
  have h := projectsFilterPagination mockProjects "payment" "TypeScript" 0 10
  have hmem : mockProjects[1] ∈
      paginatedProjects mockProjects "payment" "TypeScript" 0 10 := by decide
  obtain ⟨hs, hl⟩ := h.1 _ hmem
  exact ⟨hmem, hs, hl (by decide), h.2⟩

/-- C9: confirming a delete of a given project id removes exactly the
entries with that id: the remaining list is a sublist of the original (so
relative order is preserved), membership is exactly original membership with
a different id, and the multiplicity of every other entry is unchanged;
declining the confirmation leaves the list unchanged. -/
theorem deleteRemovesExactly :
    ∀ (projectId : Int) (projects : List Project),
      (handleDelete true projectId projects).Sublist projects ∧
        (∀ p : Project, p ∈ handleDelete true projectId projects ↔
            p ∈ projects ∧ p.id ≠ projectId) ∧
        (∀ p : Project, p.id ≠ projectId →
            (handleDelete true projectId projects).count p = projects.count p) ∧
        handleDelete false projectId projects = projects := by
  intro projectId projects
  refine ⟨?_, ?_, ?_, rfl⟩
  · simp only [handleDelete, if_pos]
    exact List.filter_sublist _
  · intro p
    simp only [handleDelete, if_pos, List.mem_filter, decide_eq_true_eq]
  · intro p hp
    simp only [handleDelete, if_pos]
    exact List.count_filter (by simpa using hp)

/-- C9 witness: deleting id 2 from the mock projects keeps the two other
projects (in order, with their multiplicity), drops the Payment Gateway
entry, and a declined confirmation changes nothing. -/
theorem deleteRemovesExactly_witness :
    (handleDelete true 2 mockProjects).Sublist mockProjects ∧
      mockProjects[0] ∈ handleDelete true 2 mockProjects ∧
      mockProjects[1] ∉ handleDelete true 2 mockProjects ∧
      (handleDelete true 2 mockProjects).count mockProjects[0] =
        mockProjects.count mockProjects[0] ∧
      handleDelete false 2 mockProjects = mockProjects := by
  have h := deleteRemovesExactly 2 mockProjects
  refine ⟨h.1, ?_, ?_, h.2.2.1 _ (by decide), h.2.2.2⟩
  · exact (h.2.1 _).mpr ⟨by decide, by decide⟩
  · intro hmem
    exact absurd ((h.2.1 _).mp hmem).2 (by decide)

/-- C1 witness: the theorem evaluated at concrete inputs. -/
theorem riskValueBoundsAndSeverity_witness :
    (0 ≤ riskScore (1/2) (1/2) (1/2) (1/2) ∧
        riskScore (1/2) (1/2) (1/2) (1/2) ≤ 1) ∧
      severityOf (9/10) = "critical" ∧
      severityOf (1/4) = "low" :=
  ⟨riskValueBoundsAndSeverity.1 (1/2) (1/2) (1/2) (1/2) (by norm_num)
      (by norm_num) (by norm_num) (by norm_num) (by norm_num) (by norm_num)
      (by norm_num) (by norm_num),
    (riskValueBoundsAndSeverity.2.1 (9/10)).1 (by norm_num),
    (riskValueBoundsAndSeverity.2.1 (1/4)).2.2.2 (by norm_num)⟩

theorem stage_ne_failed_of_not_terminal {s : JobStage}
    (h : s.isTerminal = false) : s ≠ .failed := by
  intro he
  subst he
  simp [JobStage.isTerminal] at h

theorem jobInv_init (n : Nat) : JobInv (initJob n) := by
  unfold JobInv initJob
  refine ⟨Nat.zero_le _, ?_, ?_, ?_, ?_⟩ <;> simp

theorem jobInv_step {j j' : JobState} (hinv : JobInv j)
    (hstep : JobStep j j') : JobInv j' := by
  obtain ⟨h1, h2, h3, h4, h5⟩ := hinv
  cases hstep with
  | accept hp =>
      refine ⟨h1, by simp, by simp, by simp, fun _ => h5 (by rw [hp]; simp)⟩
  | parseFile d hs hd =>
      refine ⟨hd, by simp [hs], by simp [hs], by simp [hs],
        fun _ => h5 (by rw [hs]; simp)⟩
  | finishParsing hs hd =>
      refine ⟨le_of_eq hd, fun _ => hd, by simp, by simp,
        fun _ => h5 (by rw [hs]; simp)⟩
  | buildDone hs =>
      refine ⟨h1, fun _ => h2 (Or.inl hs), by simp, by simp,
        fun _ => h5 (by rw [hs]; simp)⟩
  | metricsDone hs =>
      refine ⟨h1, fun _ => h2 (Or.inr (Or.inl hs)), by simp, by simp,
        fun _ => h5 (by rw [hs]; simp)⟩
  | scoreDone r hs =>
      refine ⟨h1, fun _ => h2 (Or.inr (Or.inr (Or.inl hs))), fun _ => rfl,
        by simp, fun _ => h5 (by rw [hs]; simp)⟩
  | stageFail e ht =>
      exact ⟨h1, by simp, by simp, fun _ => ⟨rfl, rfl⟩, by simp⟩
  | cancel ht =>
      refine ⟨h1, by simp, by simp, by simp,
        fun _ => h5 (stage_ne_failed_of_not_terminal ht)⟩

theorem jobInv_reachable {j : JobState} (h : JobReachable j) : JobInv j := by
  obtain ⟨n, hr⟩ := h
  induction hr with
  | refl => exact jobInv_init n
  | tail _ hstep ih => exact jobInv_step ih hstep

theorem jobProgress_mono {j j' : JobState} (hstep : JobStep j j') :
    jobProgress j ≤ jobProgress j' := by
  cases hstep with
  | parseFile d hs hd =>
      unfold jobProgress
      by_cases ht : j.totalFiles = 0
      · simp [ht]
      · simp only [ht, if_false]
        exact Nat.div_le_div_right (Nat.mul_le_mul_right _ (Nat.le_succ _))
  | accept hp => exact Nat.le_refl _
  | finishParsing hs hd => exact Nat.le_refl _
  | buildDone hs => exact Nat.le_refl _
  | metricsDone hs => exact Nat.le_refl _
  | scoreDone r hs => exact Nat.le_refl _
  | stageFail e ht => exact Nat.le_refl _
  | cancel ht => exact Nat.le_refl _

theorem jobProgress_le_100 {j : JobState} (hinv : JobInv j) :
    jobProgress j ≤ 100 := by
  unfold jobProgress
  by_cases ht : j.totalFiles = 0
  · simp [ht]
  · rw [if_neg ht]
    calc j.doneFiles * 100 / j.totalFiles
        ≤ j.totalFiles * 100 / j.totalFiles :=
          Nat.div_le_div_right (Nat.mul_le_mul_right _ hinv.1)
      _ = 100 := Nat.mul_div_cancel_left 100 (Nat.pos_of_ne_zero ht)

theorem jobProgress_full {j : JobState} (hinv : JobInv j)
    (h : jobProgress j = 100) : j.doneFiles = j.totalFiles := by
  unfold jobProgress at h
  by_cases ht : j.totalFiles = 0
  · have := hinv.1
    omega
  · rw [if_neg ht] at h
    have h100 : 100 ≤ j.doneFiles * 100 / j.totalFiles := le_of_eq h.symm
    rw [Nat.le_div_iff_mul_le (Nat.pos_of_ne_zero ht)] at h100
    have := hinv.1
    omega

theorem jobProgress_of_full {j : JobState} (h : j.doneFiles = j.totalFiles) :
    jobProgress j = 100 := by
  unfold jobProgress
  by_cases ht : j.totalFiles = 0
  · simp [ht]
  · rw [if_neg ht, h]
    exact Nat.mul_div_cancel_left 100 (Nat.pos_of_ne_zero ht)

/-- C3: the reported progress percentage is non-decreasing along every
orchestrator transition; a reachable job never reports more than 100; a
reachable job reports exactly 100 precisely when every file has a terminal
outcome (so, with monotonicity and the 100 bound, the value 100 is reached
once and then retained — never prematurely, never sticking below 100); and
a job in the Completed state reports 100, so 100 is reached at or before
the Completed transition. -/
theorem progressMonotoneReaches100 :
    (∀ j j' : JobState, JobStep j j' → jobProgress j ≤ jobProgress j') ∧
      (∀ j : JobState, JobReachable j → jobProgress j ≤ 100) ∧
      (∀ j : JobState, JobReachable j →
          (jobProgress j = 100 ↔ j.doneFiles = j.totalFiles)) ∧
      ∀ j : JobState, JobReachable j → j.stage = .completed →
        jobProgress j = 100 := by
  refine ⟨fun j j' h => jobProgress_mono h,
    fun j h => jobProgress_le_100 (jobInv_reachable h),
    fun j h => ⟨jobProgress_full (jobInv_reachable h), jobProgress_of_full⟩,
    fun j h hc => ?_⟩
  exact jobProgress_of_full
    ((jobInv_reachable h).2.1 (Or.inr (Or.inr (Or.inr hc))))

theorem jobDemoDone_reachable : JobReachable jobDemoDone := by
  refine ⟨1, ?_⟩
  refine Relation.ReflTransGen.head (JobStep.accept _ rfl) ?_
  refine Relation.ReflTransGen.head (JobStep.parseFile _ [] rfl (by decide)) ?_
  refine Relation.ReflTransGen.head (JobStep.finishParsing _ rfl rfl) ?_
  refine Relation.ReflTransGen.head (JobStep.buildDone _ rfl) ?_
  refine Relation.ReflTransGen.head (JobStep.metricsDone _ rfl) ?_
  exact Relation.ReflTransGen.single
    (show JobStep _ jobDemoDone from JobStep.scoreDone _ mockResults rfl)

theorem jobDemoFailed_reachable : JobReachable jobDemoFailed := by
  refine ⟨1, ?_⟩
  refine Relation.ReflTransGen.head (JobStep.accept _ rfl) ?_
  refine Relation.ReflTransGen.head (JobStep.parseFile _ [] rfl (by decide)) ?_
  refine Relation.ReflTransGen.head (JobStep.finishParsing _ rfl rfl) ?_
  exact Relation.ReflTransGen.single
    (show JobStep _ jobDemoFailed from JobStep.stageFail _ "GraphBuildError" rfl)

/-- C3 witness: the theorem evaluated on a concrete accept transition and on
the concrete completed job `jobDemoDone`. -/
theorem progressMonotoneReaches100_witness :
    jobProgress (initJob 2) ≤ jobProgress { initJob 2 with stage := .parsing } ∧
      jobProgress jobDemoDone ≤ 100 ∧
      (jobProgress jobDemoDone = 100 ↔
        jobDemoDone.doneFiles = jobDemoDone.totalFiles) ∧
      jobProgress jobDemoDone = 100 :=
  ⟨progressMonotoneReaches100.1 _ _ (JobStep.accept _ rfl),
    progressMonotoneReaches100.2.1 _ jobDemoDone_reachable,
    progressMonotoneReaches100.2.2.1 _ jobDemoDone_reachable,
    progressMonotoneReaches100.2.2.2 _ jobDemoDone_reachable rfl⟩

/-- C5: every reachable job in the Completed state carries a results payload
(alongside its — possibly empty — diagnostics list) and no fatal error, and
every reachable job in the Failed state carries zero results together with
exactly one fatal error description. -/
theorem terminalJobPayloads :
    ∀ j : JobState, JobReachable j →
      (j.stage = .completed → j.results.isSome = true ∧ j.fatalError = none) ∧
        (j.stage = .failed → j.results = none ∧ j.fatalError.isSome = true) := by
  intro j hreach
  have hinv := jobInv_reachable hreach
  exact ⟨fun hc => ⟨hinv.2.2.1 hc, hinv.2.2.2.2 (by rw [hc]; simp)⟩,
    fun hf => hinv.2.2.2.1 hf⟩

/-- C5 witness: the theorem evaluated on the concrete completed job
`jobDemoDone` and the concrete failed job `jobDemoFailed`. -/
theorem terminalJobPayloads_witness :
    (jobDemoDone.results.isSome = true ∧ jobDemoDone.fatalError = none) ∧
      jobDemoFailed.results = none ∧ jobDemoFailed.fatalError.isSome = true :=
  ⟨(terminalJobPayloads jobDemoDone jobDemoDone_reachable).1 rfl,
    (terminalJobPayloads jobDemoFailed jobDemoFailed_reachable).2 rfl⟩

/-- Two lists that are permutations of each other, whose key images agree,
and whose keys are duplicate-free, are equal. -/
theorem eq_of_perm_of_map_eq {α β : Type} [DecidableEq β] {f : α → β}
    {l₁ l₂ : List α} (hp : l₁.Perm l₂) (hm : l₁.map f = l₂.map f)
    (hn : (l₁.map f).Nodup) : l₁ = l₂ := by
  induction l₁ generalizing l₂ with
  | nil => exact (hp.symm.eq_nil).symm
  | cons a t ih =>
      cases l₂ with
      | nil => exact absurd hp.eq_nil (by simp)
      | cons b t₂ =>
          simp only [List.map_cons, List.cons.injEq] at hm
          obtain ⟨hab, hts⟩ := hm
          rw [List.map_cons] at hn
          obtain ⟨hnotin, hnt⟩ := List.nodup_cons.mp hn
          have haeqb : a = b := by
            have hmem : a ∈ b :: t₂ := hp.subset (List.mem_cons_self a t)
            rcases List.mem_cons.mp hmem with h | h
            · exact h
            · exact absurd (hts ▸ List.mem_map_of_mem f h) hnotin
          subst haeqb
          exact congrArg (List.cons a) (ih hp.cons_inv hts hnt)

/-- C6: the spec-modelled Dependency Graph Builder is deterministic — for a
fixed set of SymbolRecords (with their node ids pairwise distinct) the
resulting edge set is identical regardless of the order the records arrive
in (hence independent of worker-pool scheduling); and fetching the analysis
twice for the same id yields identical data, since `fetchAnalysis` is a
pure function of the id. -/
theorem analysisDeterministic :
    (∀ l₁ l₂ : List SymbolRecord, l₁.Perm l₂ →
        (l₁.map (fun r => r.nodeId)).Nodup → buildGraph l₁ = buildGraph l₂) ∧
      ∀ i₁ i₂ : Int, i₁ = i₂ → fetchAnalysis i₁ = fetchAnalysis i₂ := by
  constructor
  · intro l₁ l₂ hp hn
    have hperm : (l₁.insertionSort recLE).Perm (l₂.insertionSort recLE) :=
      (List.perm_insertionSort recLE l₁).trans
        (hp.trans (List.perm_insertionSort recLE l₂).symm)
    have hs₁ : ((l₁.insertionSort recLE).map (fun r => r.nodeId)).Sorted (· ≤ ·) :=
      List.Pairwise.map _ (fun a b h => h) (List.sorted_insertionSort recLE l₁)
    have hs₂ : ((l₂.insertionSort recLE).map (fun r => r.nodeId)).Sorted (· ≤ ·) :=
      List.Pairwise.map _ (fun a b h => h) (List.sorted_insertionSort recLE l₂)
    have hmeq : (l₁.insertionSort recLE).map (fun r => r.nodeId) =
        (l₂.insertionSort recLE).map (fun r => r.nodeId) :=
      List.eq_of_perm_of_sorted (hperm.map _) hs₁ hs₂
    have hnd : ((l₁.insertionSort recLE).map (fun r => r.nodeId)).Nodup :=
      (((List.perm_insertionSort recLE l₁).map _).nodup_iff).mpr hn
    have hsort : l₁.insertionSort recLE = l₂.insertionSort recLE :=
      eq_of_perm_of_map_eq hperm hmeq hnd
    unfold buildGraph
    rw [hsort]
  · intro i₁ i₂ h
    rw [h]

/-- C6 witness: the theorem evaluated on two orderings of a concrete
two-record set, and on a repeated fetch of analysis id 7. -/
theorem analysisDeterministic_witness :
    (([⟨"b", ["a"]⟩, ⟨"a", []⟩] : List SymbolRecord).Perm
        [⟨"a", []⟩, ⟨"b", ["a"]⟩]) ∧
      buildGraph [⟨"b", ["a"]⟩, ⟨"a", []⟩] =
        buildGraph [⟨"a", []⟩, ⟨"b", ["a"]⟩] ∧
      fetchAnalysis 7 = fetchAnalysis 7 :=
  ⟨List.Perm.swap _ _ _, analysisDeterministic.1 _ _ (List.Perm.swap _ _ _)
      (by decide), analysisDeterministic.2 7 7 rfl⟩
